import Mathlib

/-!
Verification of the incremental native-build orchestrator (`src/make.rs`)
against its natural-language specification.

The Rust module is shallowly embedded: filesystem metadata reads, environment
lookups and subprocess spawns are passed in as explicit functions, panics and
`std::process::exit` become explicit outcome values, and the state mutated by
`Make` is threaded as a Lean structure.
-/

namespace Zz

/-- Modelled from the spec (§4.3): the wide (128-bit) non-cryptographic hash of
the joined argument list.  The concrete algorithm used by the code
(`fasthash::metro::hash128`) is third-party crate code that is not part of this
repository's sources, so it is modelled as a deterministic 128-bit FNV-1a fold.
Every theorem below depends only on this being a deterministic function into
128-bit values; the collision counterexample for claim C1 is hash-independent
(it feeds the hash two equal strings). -/
def hash128 (s : String) : Nat :=
  s.data.foldl (fun h c => ((h ^^^ c.toNat) * 309485009821345068724781371) % (2 ^ 128))
    144066263297769815596495629667062367629

/-- Hex digit characters, as produced by Rust's `{:x}` formatting. -/
def hexChar (n : Nat) : Char :=
  if n < 10 then Char.ofNat (48 + n) else Char.ofNat (87 + n)

/-- Big-endian hex digit list of `n`, computed with explicit fuel so that it
reduces in the kernel.  `toHexAux fuel n` is the digit list of `n` whenever
`n < fuel`. -/
def toHexAux : Nat → Nat → List Char
  | 0, _ => []
  | fuel + 1, n =>
    if n = 0 then [] else toHexAux fuel (n / 16) ++ [hexChar (n % 16)]

/-- Rust's `{:x}` rendering of an unsigned integer: minimal lowercase hex,
`"0"` for zero. -/
def toHex (n : Nat) : String :=
  if n = 0 then "0" else String.mk (toHexAux (n + 1) n)

/-- Embedding of `inp.to_string_lossy().replace(|c: char| !c.is_alphanumeric(), "_")`
from `Make::cobject`: every non-alphanumeric character becomes `'_'`.
(Rust's `char::is_alphanumeric` is Unicode-aware; `Char.isAlphanum` agrees with
it on ASCII, which is the alphabet of all concrete inputs used here.) -/
def sanitize (s : String) : String :=
  String.mk (s.data.map (fun c => if c.isAlphanum then c else '_'))

/-- Embedding of Rust's `str::split_whitespace` (used on pkg-config output):
split on whitespace runs, dropping empty fragments. -/
def splitWsAux : List Char → List Char → List String
  | [], acc => if acc.isEmpty then [] else [String.mk acc.reverse]
  | c :: rest, acc =>
    if c.isWhitespace then
      (if acc.isEmpty then [] else [String.mk acc.reverse]) ++ splitWsAux rest []
    else
      splitWsAux rest (c :: acc)

def splitWhitespace (s : String) : List String :=
  splitWsAux s.data []

/-- `ArtifactType` from `src/project.rs`.  Modelled from the spec (§3): the
`Artifact` data shape lives in `project.rs`, which is not among the given
sources; `make.rs` matches on exactly these four constructors. -/
inductive ArtifactType
  | Lib
  | Exe
  | Test
  | Header
deriving DecidableEq

/-- `Artifact` from `src/project.rs`.  Modelled from the spec (§3):
`{ name, kind }`, with the fields `make.rs` reads (`typ`, `name`). -/
structure Artifact where
  typ : ArtifactType
  name : String
deriving DecidableEq

/-- `Project` from `src/project.rs`.  Modelled from the spec (§4.1, §6): the
configuration fields `Make::new` reads.  All are optional, exactly as accessed
by `make.rs` (`if let Some(..)` on each). -/
structure Project where
  std : Option String
  cincludes : Option (List String)
  pkgconfig : Option (List String)
  cflags : Option (List String)
  lflags : Option (List String)
  cobjects : Option (List String)

/-- `CFile` from `src/emitter.rs`.  Modelled from the spec (§6): a generated
translation-unit descriptor — logical name, generated file path, and the full
set of contributing source files.  `make.rs` reads `name`, `filepath` and
`sources`; the Rust `HashSet<PathBuf>` is modelled as a list (its iteration
order is unspecified in Rust; theorems that depend on order quantify over it
or are order-independent). -/
structure CFile where
  name : String
  filepath : String
  sources : List String

/-- `Step` from `make.rs`: one pending compile invocation. -/
structure Step where
  source : String
  args : List String
deriving DecidableEq

/-- `Make` from `make.rs`. -/
structure Make where
  artifact : Artifact
  steps : List Step
  cc : String
  cflags : List String
  lflags : List String

/-- A filesystem abstraction for `std::fs::metadata(..)` + `.modified()`:
`fs p = some t` means path `p` stats successfully with modification time `t`;
`fs p = none` means the stat fails (commonly: the path does not exist).
`SystemTime` values are modelled as naturals; `modified()` is assumed available
whenever the metadata read succeeds, matching the supported platforms (both
failure points in `is_dirty` print the same "cannot stat" message). -/
abbrev FS := String → Option Nat

/-- The source loop of `Make::is_dirty`, given the target's mtime `t`:
`none` models the `.expect("cannot stat ..")` panic on an unreadable source;
`some true` is the early `return true` on a strictly newer source. -/
def dirtyLoop (fs : FS) (t : Nat) : List String → Option Bool
  | [] => some false
  | s :: rest =>
    match fs s with
    | none => none
    | some m => if t < m then some true else dirtyLoop fs t rest

/-- `Make::is_dirty` (lines 108–125): stale (`some true`) when the target
cannot be statted; otherwise stale iff some source is strictly newer; `none`
models the panic when a source cannot be statted. -/
def is_dirty (fs : FS) (sources : List String) (target : String) : Option Bool :=
  match fs target with
  | none => some true
  | some t => dirtyLoop fs t sources

/-- The per-unit argument list of `Make::cobject` up to and including `-o`
(lines 129–133) — exactly what is hashed (line 134). -/
def cobjectArgsBase (cflags : List String) (inp : String) : List String :=
  cflags ++ ["-c", inp, "-o"]

def cobjectHash (cflags : List String) (inp : String) : Nat :=
  hash128 (String.intercalate " " (cobjectArgsBase cflags inp))

/-- The derived output path of `Make::cobject` (lines 136–138):
`"./target/c/" + sanitized-source + "_" + hex(hash) + ".o"`. -/
def cobjectOutp (cflags : List String) (inp : String) : String :=
  "./target/c/" ++ sanitize inp ++ "_" ++ toHex (cobjectHash cflags inp) ++ ".o"

/-- The full argument list of the Step enqueued by `Make::cobject`. -/
def cobjectArgs (cflags : List String) (inp : String) : List String :=
  cobjectArgsBase cflags inp ++ [cobjectOutp cflags inp]

/-- `Make::cobject` (lines 127–152).  `none` models the panic propagated out of
`is_dirty`.  The staleness sources are exactly the singleton `[inp]`
(lines 142–143); the derived output path is unconditionally inserted at the
front of `lflags` (line 151). -/
def Make.cobject (fs : FS) (m : Make) (inp : String) : Option Make :=
  match is_dirty fs [inp] (cobjectOutp m.cflags inp) with
  | none => none
  | some dirty =>
    some { m with
      steps := m.steps ++ (if dirty then [⟨inp, cobjectArgs m.cflags inp⟩] else []),
      lflags := cobjectOutp m.cflags inp :: m.lflags }

/-- The fixed warning/error-escalation flags pushed by `Make::build`
(lines 156–164), in push order. -/
def warningFlags : List String :=
  ["-Werror=implicit-function-declaration",
   "-Werror=incompatible-pointer-types",
   "-Werror=return-type",
   "-Wpedantic",
   "-Wall",
   "-Wno-unused-function",
   "-Wno-parentheses-equality",
   "-Werror=pointer-sign",
   "-Werror=int-to-pointer-cast"]

/-- The per-unit argument list of `Make::build` up to and including `-o`
(lines 155–167) — exactly what is hashed (line 169). -/
def buildArgsBase (cflags : List String) (cf : CFile) : List String :=
  cflags ++ warningFlags ++ ["-c", cf.filepath, "-o"]

def buildHash (cflags : List String) (cf : CFile) : Nat :=
  hash128 (String.intercalate " " (buildArgsBase cflags cf))

/-- The derived output path of `Make::build` (line 171):
`"./target/zz/" + cf.name + "_" + hex(hash) + ".o"` — note the unit's *name*,
used verbatim, not its sanitized source path. -/
def buildOutp (cflags : List String) (cf : CFile) : String :=
  "./target/zz/" ++ cf.name ++ "_" ++ toHex (buildHash cflags cf) ++ ".o"

/-- The full argument list of the Step enqueued by `Make::build`. -/
def buildArgs (cflags : List String) (cf : CFile) : List String :=
  buildArgsBase cflags cf ++ [buildOutp cflags cf]

/-- `Make::build` (lines 154–181): like `cobject`, but the staleness sources
are the unit's full dependency set `cf.sources`. -/
def Make.build (fs : FS) (m : Make) (cf : CFile) : Option Make :=
  match is_dirty fs cf.sources (buildOutp m.cflags cf) with
  | none => none
  | some dirty =>
    some { m with
      steps := m.steps ++ (if dirty then [⟨cf.filepath, buildArgs m.cflags cf⟩] else []),
      lflags := buildOutp m.cflags cf :: m.lflags }

/-- Helper for `strContains`: does `pat` occur as a contiguous run in the
character list? -/
def containsAux (pat : List Char) : List Char → Bool
  | [] => pat.isEmpty
  | c :: rest => pat.isPrefixOf (c :: rest) || containsAux pat rest

/-- Embedding of Rust's `str::contains` with a string pattern
(used for `std.contains("c++")` in `Make::new`). -/
def strContains (s pat : String) : Bool :=
  containsAux pat.data s.data

/-- Result of both pkg-config `.output()` calls in `Make::new`:
`none` models a spawn failure (`.output()` returning `Err`, hence the
`.expect` panic); `some (success, stdout)` models a process that ran, with its
exit status and captured standard output.  `Make::new` never inspects the
status flag — exactly as in the source, which reads `flags.stdout`
unconditionally. -/
abbrev PkgExec := List String → Option (Bool × String)

/-- The pkg-config loop of `Make::new` (lines 44–70): for each package, query
`--cflags` then `--libs`, split each stdout on whitespace, and accumulate in
order.  `none` models the `.expect` panic on a spawn failure. -/
def pkgQueries (pkg : PkgExec) : List String → Option (List String × List String)
  | [] => some ([], [])
  | p :: rest =>
    match pkg ["pkg-config", "--cflags", p] with
    | none => none
    | some cOut =>
      match pkg ["pkg-config", "--libs", p] with
      | none => none
      | some lOut =>
        match pkgQueries pkg rest with
        | none => none
        | some (cs, ls) =>
          some (splitWhitespace cOut.2 ++ cs, splitWhitespace lOut.2 ++ ls)

/-- `Make::new` (lines 23–105).  `env` models `std::env::var` (`none` = unset),
`pkg` the pkg-config subprocess, `fs` the filesystem (consulted by the
`cobject` calls at lines 98–102).  `none` models a panic escaping `new`
(pkg-config spawn failure, or `is_dirty` panicking inside `cobject`). -/
def Make.new (env : String → Option String) (pkg : PkgExec) (fs : FS)
    (project : Project) (artifact : Artifact) : Option Make :=
  let cc0 := (env "CC").getD "clang"
  let stdFlagsCc : List String × String :=
    match project.std with
    | none => ([], cc0)
    | some std =>
      (["-std=" ++ std],
       if strContains std "c++" then (env "CXX").getD "clang++" else cc0)
  let incFlags : List String :=
    ((project.cincludes.getD []).map (fun cinc => ["-I", cinc])).flatten
  match pkgQueries pkg (project.pkgconfig.getD []) with
  | none => none
  | some (pkgC, pkgL) =>
    let cflags := stdFlagsCc.1 ++ incFlags ++ pkgC ++
      ["-fPIC", "-I", ".", "-I", "./target/include/", "-fvisibility=hidden"] ++
      (project.cflags.getD [])
    let lflags := pkgL ++ (project.lflags.getD [])
    let m : Make :=
      { artifact := artifact, steps := [], cc := stdFlagsCc.2,
        cflags := cflags, lflags := lflags }
    (project.cobjects.getD []).foldlM (fun m c => Make.cobject fs m c) m

/-- Result of one `Command::status()` call: `execFail` models `status()`
returning `Err` (the spawn failed, triggering the `.expect` panic);
`signaled` models an abnormal exit with `status.code() = None` (killed by a
signal); `exited c` a normal exit with code `c`. -/
inductive ProcStatus
  | execFail
  | signaled
  | exited (code : Nat)
deriving DecidableEq

/-- How `Make::link` terminates: `success` is a normal return, `exitCode c`
models `std::process::exit(c)`, and `panicked` models a `panic!`/`.expect`
abort (itself a non-zero process exit). -/
inductive Outcome
  | success
  | exitCode (c : Nat)
  | panicked (msg : String)
deriving DecidableEq

/-- The compile-step loop of `Make::link` (lines 189–201), modelled as one
sequential interleaving of the rayon `par_iter` (claims proved about it hold
in every interleaving; see the doc comments of the theorems using it).
Returns the trace of spawned invocations `(cc, args)` in order, and `some o`
if the loop terminated the process early. -/
def runSteps (exec : String → List String → ProcStatus) (cc : String) :
    List Step → List (String × List String) × Option Outcome
  | [] => ([], none)
  | s :: rest =>
    match exec cc s.args with
    | .execFail => ([(cc, s.args)], some (.panicked "failed to execute cc"))
    | .signaled => ([(cc, s.args)], some (.exitCode 3))
    | .exited c =>
      if c = 0 then
        let t := runSteps exec cc rest
        ((cc, s.args) :: t.1, t.2)
      else
        ([(cc, s.args)], some (.exitCode c))

/-- The final linker spawn of `Make::link` (lines 226–232). -/
def runLinker (exec : String → List String → ProcStatus) (cc : String)
    (lflags : List String) (tr : List (String × List String)) :
    Outcome × List (String × List String) :=
  match exec cc lflags with
  | .execFail => (.panicked "failed to execute linker", tr ++ [(cc, lflags)])
  | .signaled => (.exitCode 3, tr ++ [(cc, lflags)])
  | .exited c => (if c = 0 then .success else .exitCode c, tr ++ [(cc, lflags)])

/-- `Make::link` (lines 184–235): run every enqueued Step; on full success,
append the artifact-kind flags (panicking on `Header`) and the trailing
`-fvisibility=hidden`, then spawn the link driver.  The second component is
the ordered trace of every subprocess spawned. -/
def Make.link (exec : String → List String → ProcStatus) (m : Make) :
    Outcome × List (String × List String) :=
  let t := runSteps exec m.cc m.steps
  match t.2 with
  | some o => (o, t.1)
  | none =>
    match m.artifact.typ with
    | .Lib =>
      runLinker exec m.cc
        (m.lflags ++ ["-shared", "-o", "./target/" ++ m.artifact.name ++ ".so",
          "-fvisibility=hidden"]) t.1
    | .Exe =>
      runLinker exec m.cc
        (m.lflags ++ ["-o", "./target/" ++ m.artifact.name, "-fvisibility=hidden"]) t.1
    | .Test =>
      runLinker exec m.cc
        (m.lflags ++ ["-o", "./target/" ++ m.artifact.name, "-fvisibility=hidden"]) t.1
    | .Header => (.panicked "cannot link header yet", t.1)

/-- The non-success exit code that `Make::link`'s step loop propagates for a
given subprocess status: the subprocess's own code when it exited non-zero, or
the fixed fallback `3` (`status.code().unwrap_or(3)`) when the code is
unavailable; `none` when the status is a success or a spawn failure (the
latter panics instead of calling `exit`). -/
def statusFailCode : ProcStatus → Option Nat
  | .execFail => none
  | .signaled => some 3
  | .exited c => if c = 0 then none else some c

/-! ## Auxiliary lemmas: hex rendering and path injectivity -/

theorem hexChar_ne_underscore : ∀ d, d < 16 → hexChar d ≠ '_' := by decide

theorem hexChar_inj16 : ∀ d1, d1 < 16 → ∀ d2, d2 < 16 → hexChar d1 = hexChar d2 → d1 = d2 := by
  decide

theorem toHexAux_eq_digits : ∀ fuel n, n < fuel →
    toHexAux fuel n = ((Nat.digits 16 n).map hexChar).reverse := by
  intro fuel
  induction fuel with
  | zero => intro n hn; omega
  | succ fuel ih =>
    intro n hn
    by_cases h0 : n = 0
    · subst h0; simp [toHexAux]
    · have hdiv : n / 16 < fuel := by
        have h1 : n / 16 < n := Nat.div_lt_self (Nat.pos_of_ne_zero h0) (by norm_num)
        omega
      rw [toHexAux, if_neg h0, ih _ hdiv,
        Nat.digits_def' (by norm_num : 1 < 16) (Nat.pos_of_ne_zero h0)]
      simp

theorem toHex_eq_digits (n : Nat) :
    toHex n = if n = 0 then "0" else String.mk (((Nat.digits 16 n).map hexChar).reverse) := by
  unfold toHex
  by_cases h0 : n = 0
  · simp [h0]
  · rw [if_neg h0, if_neg h0, toHexAux_eq_digits (n + 1) n (Nat.lt_succ_self n)]

theorem map_hexChar_inj : ∀ (l1 l2 : List Nat), (∀ x ∈ l1, x < 16) → (∀ x ∈ l2, x < 16) →
    l1.map hexChar = l2.map hexChar → l1 = l2 := by
  intro l1
  induction l1 with
  | nil => intro l2 _ _ h; cases l2 <;> simp_all
  | cons a as ih =>
    intro l2 b1 b2 h
    cases l2 with
    | nil => simp at h
    | cons b bs =>
      simp only [List.map_cons, List.cons.injEq] at h
      have ha : a = b :=
        hexChar_inj16 a (b1 a (List.mem_cons_self a as)) b (b2 b (List.mem_cons_self b bs)) h.1
      have hs : as = bs := ih bs (fun x hx => b1 x (List.mem_cons_of_mem a hx))
        (fun x hx => b2 x (List.mem_cons_of_mem b hx)) h.2
      rw [ha, hs]

theorem toHex_inj : ∀ m n, toHex m = toHex n → m = n := by
  have key : ∀ n, n ≠ 0 → ¬(("0" : String) = String.mk (((Nat.digits 16 n).map hexChar).reverse)) := by
    intro n hn h
    have hd : (['0'] : List Char) = ((Nat.digits 16 n).map hexChar).reverse := congrArg String.data h
    have hm : (Nat.digits 16 n).map hexChar = ['0'] := by
      have := congrArg List.reverse hd
      simpa using this.symm
    have hlen : (Nat.digits 16 n).length = 1 := by
      have := congrArg List.length hm
      simpa using this
    obtain ⟨d, hdig⟩ := List.length_eq_one.mp hlen
    have hd16 : d < 16 := Nat.digits_lt_base (by norm_num) (hdig ▸ List.mem_cons_self d [])
    have hch : hexChar d = '0' := by
      rw [hdig] at hm
      simpa using hm
    have hd0 : d = 0 := hexChar_inj16 d hd16 0 (by norm_num) hch
    have : n = 0 := by
      have hof := Nat.ofDigits_digits 16 n
      rw [hdig, hd0] at hof
      simpa [Nat.ofDigits_singleton] using hof.symm
    exact hn this
  intro m n h
  rw [toHex_eq_digits, toHex_eq_digits] at h
  by_cases hm : m = 0 <;> by_cases hn : n = 0
  · rw [hm, hn]
  · rw [if_pos hm, if_neg hn] at h; exact absurd h (key n hn)
  · rw [if_neg hm, if_pos hn] at h; exact absurd h.symm (key m hm)
  · rw [if_neg hm, if_neg hn] at h
    have hd : ((Nat.digits 16 m).map hexChar).reverse = ((Nat.digits 16 n).map hexChar).reverse :=
      congrArg String.data h
    have hmap := List.reverse_injective hd
    have hdig := map_hexChar_inj _ _
      (fun x hx => Nat.digits_lt_base (by norm_num) hx)
      (fun x hx => Nat.digits_lt_base (by norm_num) hx) hmap
    have h1 := Nat.ofDigits_digits 16 m
    have h2 := Nat.ofDigits_digits 16 n
    rw [hdig] at h1
    exact h1.symm.trans h2

theorem toHex_no_underscore (n : Nat) : '_' ∉ (toHex n).data := by
  rw [toHex_eq_digits]
  by_cases h0 : n = 0
  · rw [if_pos h0]; decide
  · rw [if_neg h0]
    intro hmem
    simp only [List.mem_reverse, List.mem_map] at hmem
    obtain ⟨d, hd, hch⟩ := hmem
    exact hexChar_ne_underscore d (Nat.digits_lt_base (by norm_num) hd) hch

theorem sep_split : ∀ (p1 p2 r1 r2 : List Char), '_' ∉ p1 → '_' ∉ p2 →
    p1 ++ '_' :: r1 = p2 ++ '_' :: r2 → p1 = p2 ∧ r1 = r2 := by
  intro p1
  induction p1 with
  | nil =>
    intro p2 r1 r2 _ hp2 h
    cases p2 with
    | nil => simpa using h
    | cons b bs =>
      exfalso
      simp only [List.nil_append, List.cons_append, List.cons.injEq] at h
      exact hp2 (h.1 ▸ List.mem_cons_self b bs)
  | cons a as ih =>
    intro p2 r1 r2 hp1 hp2 h
    cases p2 with
    | nil =>
      exfalso
      simp only [List.cons_append, List.nil_append, List.cons.injEq] at h
      exact hp1 (h.1.symm ▸ List.mem_cons_self a as)
    | cons b bs =>
      simp only [List.cons_append, List.cons.injEq] at h
      have htail := ih bs r1 r2
        (fun hm => hp1 (List.mem_cons_of_mem a hm))
        (fun hm => hp2 (List.mem_cons_of_mem b hm)) h.2
      exact ⟨by rw [h.1, htail.1], htail.2⟩

theorem lastSep : ∀ (a1 a2 h1 h2 : List Char), '_' ∉ h1 → '_' ∉ h2 →
    a1 ++ '_' :: h1 = a2 ++ '_' :: h2 → a1 = a2 ∧ h1 = h2 := by
  intro a1 a2 h1 h2 hh1 hh2 he
  have hr := congrArg List.reverse he
  simp only [List.reverse_append, List.reverse_cons, List.append_assoc,
    List.singleton_append] at hr
  obtain ⟨hh, ha⟩ := sep_split _ _ _ _
    (fun hm => hh1 (List.mem_reverse.mp hm))
    (fun hm => hh2 (List.mem_reverse.mp hm)) hr
  exact ⟨List.reverse_injective ha, List.reverse_injective hh⟩

theorem str_data_append (s t : String) : (s ++ t).data = s.data ++ t.data := rfl

theorem str_ext {s t : String} (h : s.data = t.data) : s = t := by
  cases s; cases t; exact congrArg String.mk h

/-- Two derived object paths of the shape the Namer produces are equal only
when their stems and their hashes are equal: the hex rendering of the hash
contains no `'_'`, so the last `'_'` splits the filename unambiguously. -/
theorem outp_eq (P s1 s2 : String) (n1 n2 : Nat)
    (he : P ++ s1 ++ "_" ++ toHex n1 ++ ".o" = P ++ s2 ++ "_" ++ toHex n2 ++ ".o") :
    s1 = s2 ∧ n1 = n2 := by
  have hd := congrArg String.data he
  have hu : ("_" : String).data = ['_'] := rfl
  have ho : (".o" : String).data = ['.', 'o'] := rfl
  simp only [str_data_append, hu, ho, List.append_assoc, List.singleton_append] at hd
  have hd2 : s1.data ++ '_' :: ((toHex n1).data ++ ['.', 'o']) =
      s2.data ++ '_' :: ((toHex n2).data ++ ['.', 'o']) := List.append_cancel_left hd
  have hsplit := lastSep _ _ _ _
    (fun hm => by
      rcases List.mem_append.mp hm with h | h
      · exact toHex_no_underscore n1 h
      · simp at h)
    (fun hm => by
      rcases List.mem_append.mp hm with h | h
      · exact toHex_no_underscore n2 h
      · simp at h) hd2
  exact ⟨str_ext hsplit.1, toHex_inj n1 n2 (str_ext (List.append_cancel_right hsplit.2))⟩

/-! ## Helper lemmas about the staleness check and unit registration -/

theorem dirtyLoop_all_some (fs : FS) (t : Nat) :
    ∀ l : List String, (∀ s ∈ l, (fs s).isSome) →
    ∃ b, dirtyLoop fs t l = some b ∧ (b = true ↔ ∃ s ∈ l, ∃ m, fs s = some m ∧ t < m) := by
  intro l
  induction l with
  | nil => intro _; exact ⟨false, rfl, by simp⟩
  | cons s rest ih =>
    intro hall
    have hs : (fs s).isSome := hall s (List.mem_cons_self s rest)
    obtain ⟨ms, hms⟩ := Option.isSome_iff_exists.mp hs
    obtain ⟨b, hb, hiff⟩ := ih (fun x hx => hall x (List.mem_cons_of_mem s hx))
    by_cases hlt : t < ms
    · refine ⟨true, ?_, ?_⟩
      · simp [dirtyLoop, hms, hlt]
      · simp only [true_iff]
        exact ⟨s, List.mem_cons_self s rest, ms, hms, hlt⟩
    · refine ⟨b, ?_, ?_⟩
      · simp [dirtyLoop, hms, hlt, hb]
      · rw [hiff]
        constructor
        · rintro ⟨x, hx, m, hm, hlt2⟩
          exact ⟨x, List.mem_cons_of_mem s hx, m, hm, hlt2⟩
        · rintro ⟨x, hx, m, hm, hlt2⟩
          rcases List.mem_cons.mp hx with rfl | hx2
          · rw [hms] at hm
            exact absurd (Option.some_injective _ hm ▸ hlt2) hlt
          · exact ⟨x, hx2, m, hm, hlt2⟩

theorem dirtyLoop_ne_some_false (fs : FS) (t : Nat) :
    ∀ l : List String, (∃ s ∈ l, fs s = none) → dirtyLoop fs t l ≠ some false := by
  intro l
  induction l with
  | nil => rintro ⟨s, hs, -⟩; simp at hs
  | cons s rest ih =>
    rintro ⟨x, hx, hxnone⟩
    rcases List.mem_cons.mp hx with rfl | hx2
    · simp [dirtyLoop, hxnone]
    · unfold dirtyLoop
      match hfs : fs s with
      | none => simp
      | some m =>
        by_cases hlt : t < m
        · simp [hlt]
        · simpa [hlt] using ih ⟨x, hx2, hxnone⟩

theorem dirtyLoop_none (fs : FS) (t : Nat) :
    ∀ (pre : List String) (bad : String) (post : List String), fs bad = none →
    (∀ s ∈ pre, ∃ m, fs s = some m ∧ m ≤ t) →
    dirtyLoop fs t (pre ++ bad :: post) = none := by
  intro pre
  induction pre with
  | nil => intro bad post hbad _; simp [dirtyLoop, hbad]
  | cons s rest ih =>
    intro bad post hbad hpre
    obtain ⟨m, hm, hle⟩ := hpre s (List.mem_cons_self s rest)
    have : ¬ t < m := by omega
    simp only [List.cons_append, dirtyLoop, hm, this, if_false]
    exact ih bad post hbad (fun x hx => hpre x (List.mem_cons_of_mem s hx))

theorem cobject_eq (fs : FS) (m : Make) (inp : String) (d : Bool)
    (h : is_dirty fs [inp] (cobjectOutp m.cflags inp) = some d) :
    Make.cobject fs m inp = some { m with
      steps := m.steps ++ (if d then [⟨inp, cobjectArgs m.cflags inp⟩] else []),
      lflags := cobjectOutp m.cflags inp :: m.lflags } := by
  unfold Make.cobject
  rw [h]

theorem build_eq (fs : FS) (m : Make) (cf : CFile) (d : Bool)
    (h : is_dirty fs cf.sources (buildOutp m.cflags cf) = some d) :
    Make.build fs m cf = some { m with
      steps := m.steps ++ (if d then [⟨cf.filepath, buildArgs m.cflags cf⟩] else []),
      lflags := buildOutp m.cflags cf :: m.lflags } := by
  unfold Make.build
  rw [h]

theorem cobject_some_parts (fs : FS) (m : Make) (inp : String) (d : Bool)
    (h : is_dirty fs [inp] (cobjectOutp m.cflags inp) = some d) :
    ∃ m2, Make.cobject fs m inp = some m2 ∧ m2.cflags = m.cflags ∧
      m2.lflags = cobjectOutp m.cflags inp :: m.lflags :=
  ⟨_, cobject_eq fs m inp d h, rfl, rfl⟩

theorem build_some_parts (fs : FS) (m : Make) (cf : CFile) (d : Bool)
    (h : is_dirty fs cf.sources (buildOutp m.cflags cf) = some d) :
    ∃ m2, Make.build fs m cf = some m2 ∧ m2.cflags = m.cflags ∧
      m2.lflags = buildOutp m.cflags cf :: m.lflags :=
  ⟨_, build_eq fs m cf d h, rfl, rfl⟩

/-! ## Claims -/

/-- Claim C2 (confirmed): for every source set and target path, the staleness
check returns true when the target's metadata cannot be read; otherwise, under
the precondition that every source's metadata is readable, it returns true if
and only if some source's modification time is strictly greater than the
target's modification time.  (`some b` is the returned boolean; `none` would
be the panic on an unreadable source, which the precondition excludes.) -/
theorem c2_theorem (fs : FS) (sources : List String) (target : String) :
    (fs target = none → is_dirty fs sources target = some true) ∧
    (∀ t, fs target = some t → (∀ s ∈ sources, (fs s).isSome) →
      ∃ b, is_dirty fs sources target = some b ∧
        (b = true ↔ ∃ s ∈ sources, ∃ m, fs s = some m ∧ t < m)) := by
  constructor
  · intro h
    unfold is_dirty
    rw [h]
  · intro t ht hall
    unfold is_dirty
    rw [ht]
    exact dirtyLoop_all_some fs t sources hall

/-- Witness for C2: a target with mtime 3 and a single readable source with
mtime 5 — the check returns `some true`, and the iff holds. -/
theorem c2_witness :
    ((fun p => if p = "a.c" then some 5 else if p = "out.o" then some 3 else none : FS) "out.o"
      = some 3) ∧
    (∀ s ∈ ["a.c"],
      ((fun p => if p = "a.c" then some 5 else if p = "out.o" then some 3 else none : FS) s).isSome) ∧
    (∃ b, is_dirty (fun p => if p = "a.c" then some 5 else if p = "out.o" then some 3 else none)
        ["a.c"] "out.o" = some b ∧
      (b = true ↔ ∃ s ∈ ["a.c"], ∃ m,
        (fun p => if p = "a.c" then some 5 else if p = "out.o" then some 3 else none : FS) s
          = some m ∧ 3 < m)) :=
  ⟨by decide, by decide,
    (c2_theorem (fun p => if p = "a.c" then some 5 else if p = "out.o" then some 3 else none)
      ["a.c"] "out.o").2 3 (by decide) (by decide)⟩

/-- Counterexample to claim C9 as stated: with the target *and* the single
declared source both unreadable, `is_dirty` returns `some true` (stale) from
its first branch without ever statting the source — the build does **not**
abort there; it proceeds to enqueue a compile step.  The claim's "the build
aborts fatally" is therefore false in this situation (its "never returns
false" half does hold — see the amended theorem). -/
theorem c9_counterexample :
    is_dirty (fun _ => none) ["src.c"] "t.o" = some true := rfl

/-- Claim C9 (amended): if some declared source's metadata is unreadable, the
staleness check never returns `some false` ("not stale"); and whenever the
check actually reaches the unreadable source (the target is readable and no
source listed before it is strictly newer), it panics (`none`), aborting the
build. -/
theorem c9_theorem (fs : FS) (sources : List String) (target : String) :
    ((∃ s ∈ sources, fs s = none) → is_dirty fs sources target ≠ some false) ∧
    (∀ t pre bad post, fs target = some t → sources = pre ++ bad :: post → fs bad = none →
      (∀ s ∈ pre, ∃ m, fs s = some m ∧ m ≤ t) →
      is_dirty fs sources target = none) := by
  constructor
  · intro hex
    unfold is_dirty
    match ht : fs target with
    | none => simp
    | some t => exact dirtyLoop_ne_some_false fs t sources hex
  · intro t pre bad post ht hsources hbad hpre
    unfold is_dirty
    rw [ht, hsources]
    exact dirtyLoop_none fs t pre bad post hbad hpre

/-- Witness for C9 (amended): target readable (mtime 3), single source
unreadable — the check panics (`none`), and in particular never answers
`some false`. -/
theorem c9_witness :
    (∃ s ∈ ["src.c"], (fun p => if p = "t.o" then some 3 else none : FS) s = none) ∧
    ((fun p => if p = "t.o" then some 3 else none : FS) "t.o" = some 3) ∧
    is_dirty (fun p => if p = "t.o" then some 3 else none) ["src.c"] "t.o" ≠ some false ∧
    is_dirty (fun p => if p = "t.o" then some 3 else none) ["src.c"] "t.o" = none :=
  ⟨by decide, by decide,
    (c9_theorem (fun p => if p = "t.o" then some 3 else none) ["src.c"] "t.o").1 (by decide),
    (c9_theorem (fun p => if p = "t.o" then some 3 else none) ["src.c"] "t.o").2 3 [] "src.c" []
      (by decide) rfl (by decide) (by simp)⟩

/-- Claim C10 (confirmed): a foreign-object unit's staleness sources are
exactly the singleton of its own source file, so whenever the derived object
exists and is at least as new as that one file, no compile step is enqueued —
for **every** filesystem satisfying just those two constraints, i.e.
regardless of the state or mtime of any other file (such as an included
header). -/
theorem c10_theorem (fs : FS) (m : Make) (inp : String) (ms mt : Nat)
    (hsrc : fs inp = some ms) (htgt : fs (cobjectOutp m.cflags inp) = some mt)
    (hle : ms ≤ mt) :
    (Make.cobject fs m inp).map Make.steps = some m.steps := by
  have hnot : ¬ mt < ms := by omega
  have hdirty : is_dirty fs [inp] (cobjectOutp m.cflags inp) = some false := by
    unfold is_dirty
    rw [htgt]
    simp [dirtyLoop, hsrc, hnot]
  rw [cobject_eq fs m inp false hdirty]
  simp

/-- Witness for C10: object newer than its source (10 ≥ 5), every other path
unreadable — no step is enqueued. -/
theorem c10_witness :
    ((fun p => if p = "a.c" then some 5
       else if p = cobjectOutp [] "a.c" then some 10 else none : FS) "a.c" = some 5) ∧
    ((fun p => if p = "a.c" then some 5
       else if p = cobjectOutp [] "a.c" then some 10 else none : FS) (cobjectOutp [] "a.c")
      = some 10) ∧
    (Make.cobject
        (fun p => if p = "a.c" then some 5
          else if p = cobjectOutp [] "a.c" then some 10 else none)
        ⟨⟨.Exe, "p"⟩, [], "clang", [], []⟩ "a.c").map Make.steps = some [] :=
  ⟨by decide, by decide,
    c10_theorem
      (fun p => if p = "a.c" then some 5
        else if p = cobjectOutp [] "a.c" then some 10 else none)
      ⟨⟨.Exe, "p"⟩, [], "clang", [], []⟩ "a.c" 5 10 (by decide) (by decide) (by decide)⟩

/-- Claim C7 (confirmed): registering a compile unit — foreign (`cobject`) or
generated (`build`) — always inserts its derived output path at the front of
`lflags`, whether the staleness check answered stale (`some true`) or fresh
(`some false`); and for units registered in order U1 (foreign), U2, U3
(generated), the final `lflags` places U3's object before U2's before U1's. -/
theorem c7_theorem :
    (∀ (fs : FS) (m : Make) (inp : String) (d : Bool),
      is_dirty fs [inp] (cobjectOutp m.cflags inp) = some d →
      (Make.cobject fs m inp).map Make.lflags = some (cobjectOutp m.cflags inp :: m.lflags)) ∧
    (∀ (fs : FS) (m : Make) (cf : CFile) (d : Bool),
      is_dirty fs cf.sources (buildOutp m.cflags cf) = some d →
      (Make.build fs m cf).map Make.lflags = some (buildOutp m.cflags cf :: m.lflags)) ∧
    (∀ (fs : FS) (m : Make) (u1 : String) (cf2 cf3 : CFile) (d1 d2 d3 : Bool),
      is_dirty fs [u1] (cobjectOutp m.cflags u1) = some d1 →
      is_dirty fs cf2.sources (buildOutp m.cflags cf2) = some d2 →
      is_dirty fs cf3.sources (buildOutp m.cflags cf3) = some d3 →
      (((Make.cobject fs m u1).bind (fun m1 => Make.build fs m1 cf2)).bind
          (fun m2 => Make.build fs m2 cf3)).map Make.lflags =
        some (buildOutp m.cflags cf3 :: buildOutp m.cflags cf2 ::
          cobjectOutp m.cflags u1 :: m.lflags)) := by
  refine ⟨?_, ?_, ?_⟩
  · intro fs m inp d h
    rw [cobject_eq fs m inp d h]
    rfl
  · intro fs m cf d h
    rw [build_eq fs m cf d h]
    rfl
  · intro fs m u1 cf2 cf3 d1 d2 d3 h1 h2 h3
    obtain ⟨m1, e1, hc1, hl1⟩ := cobject_some_parts fs m u1 d1 h1
    obtain ⟨m2, e2, hc2, hl2⟩ := build_some_parts fs m1 cf2 d2 (by rw [hc1]; exact h2)
    obtain ⟨m3, e3, hc3, hl3⟩ := build_some_parts fs m2 cf3 d3 (by rw [hc2, hc1]; exact h3)
    rw [e1, Option.some_bind, e2, Option.some_bind, e3]
    simp only [Option.map_some', hl3, hl2, hl1, hc2, hc1]

/-- Witness for C7: with every path unreadable (everything stale), one foreign
unit then two generated units — the three derived objects end up most recent
first. -/
theorem c7_witness :
    (is_dirty (fun _ => none) ["a.c"] (cobjectOutp [] "a.c") = some true) ∧
    (is_dirty (fun _ => none) (⟨"u2", "u2.c", ["u2.zz"]⟩ : CFile).sources
      (buildOutp [] ⟨"u2", "u2.c", ["u2.zz"]⟩) = some true) ∧
    (is_dirty (fun _ => none) (⟨"u3", "u3.c", ["u3.zz"]⟩ : CFile).sources
      (buildOutp [] ⟨"u3", "u3.c", ["u3.zz"]⟩) = some true) ∧
    (((Make.cobject (fun _ => none) ⟨⟨.Exe, "p"⟩, [], "clang", [], []⟩ "a.c").bind
        (fun m1 => Make.build (fun _ => none) m1 ⟨"u2", "u2.c", ["u2.zz"]⟩)).bind
        (fun m2 => Make.build (fun _ => none) m2 ⟨"u3", "u3.c", ["u3.zz"]⟩)).map Make.lflags =
      some [buildOutp [] ⟨"u3", "u3.c", ["u3.zz"]⟩, buildOutp [] ⟨"u2", "u2.c", ["u2.zz"]⟩,
        cobjectOutp [] "a.c"] :=
  ⟨rfl, rfl, rfl,
    c7_theorem.2.2 (fun _ => none) ⟨⟨.Exe, "p"⟩, [], "clang", [], []⟩ "a.c"
      ⟨"u2", "u2.c", ["u2.zz"]⟩ ⟨"u3", "u3.c", ["u3.zz"]⟩ true true true rfl rfl rfl⟩

/-- Counterexample to claim C1 as stated: two per-unit argument lists that
differ in their tokens (`["-I x"]` — one flag containing a space — versus
`["-I", "x"]`) but whose space-separated joins coincide, so the hash and the
entire derived output path coincide.  The Namer does **not** derive distinct
paths for all token-wise distinct argument lists. -/
theorem c1_counterexample :
    cobjectArgsBase ["-I x"] "a.c" ≠ cobjectArgsBase ["-I", "x"] "a.c" ∧
    cobjectOutp ["-I x"] "a.c" = cobjectOutp ["-I", "x"] "a.c" := by
  constructor
  · decide
  · decide

/-- Claim C1 (amended): the derived output path is a deterministic function of
the per-unit argument list, and two invocations of the same unit kind derive
distinct output paths whenever the 128-bit hashes of their space-joined
argument lists differ (token-wise difference alone is not enough: lists that
join to the same string collide, and hash collisions are only improbable, not
impossible).  Distinctness of hashes suffices because the hex rendering of the
hash, which contains no `'_'`, sits after the last `'_'` of the filename. -/
theorem c1_theorem :
    (∀ (f1 f2 : List String) (i1 i2 : String),
      cobjectHash f1 i1 ≠ cobjectHash f2 i2 → cobjectOutp f1 i1 ≠ cobjectOutp f2 i2) ∧
    (∀ (g1 g2 : List String) (b1 b2 : CFile),
      buildHash g1 b1 ≠ buildHash g2 b2 → buildOutp g1 b1 ≠ buildOutp g2 b2) := by
  constructor
  · intro f1 f2 i1 i2 hne he
    unfold cobjectOutp at he
    exact hne (outp_eq "./target/c/" (sanitize i1) (sanitize i2) _ _ he).2
  · intro g1 g2 b1 b2 hne he
    unfold buildOutp at he
    exact hne (outp_eq "./target/zz/" b1.name b2.name _ _ he).2

set_option maxRecDepth 40000 in
/-- Witness for C1 (amended): adding `-O2` changes the hash, hence the derived
path, for both unit kinds. -/
theorem c1_witness :
    (cobjectHash ["-O2"] "a.c" ≠ cobjectHash [] "a.c") ∧
    (cobjectOutp ["-O2"] "a.c" ≠ cobjectOutp [] "a.c") ∧
    (buildHash ["-O2"] ⟨"m", "m.c", []⟩ ≠ buildHash [] ⟨"m", "m.c", []⟩) ∧
    (buildOutp ["-O2"] ⟨"m", "m.c", []⟩ ≠ buildOutp [] ⟨"m", "m.c", []⟩) :=
  ⟨by decide, c1_theorem.1 ["-O2"] [] "a.c" "a.c" (by decide),
   by decide, c1_theorem.2 ["-O2"] [] ⟨"m", "m.c", []⟩ ⟨"m", "m.c", []⟩ (by decide)⟩

/-- Counterexample to claim C6 as stated: a foreign-object unit registered
through `Make::cobject` gets the full per-unit argument list
`cflags ++ ["-c", source, "-o", output]` with **none** of the
warning/error-escalation flags — here, run with empty baseline flags, the
enqueued Step's list does not contain `-Werror=implicit-function-declaration`
(nor any of the others). -/
theorem c6_counterexample :
    (Make.cobject (fun _ => none) ⟨⟨.Exe, "p"⟩, [], "clang", [], []⟩ "a.c").map
        (fun m => m.steps.map Step.args) = some [cobjectArgs [] "a.c"] ∧
    "-Werror=implicit-function-declaration" ∉ cobjectArgs [] "a.c" := by
  constructor
  · rfl
  · decide

/-- Claim C6 (amended): only **generated** translation units receive the fixed
warning/error-escalation flags: `Make::build`'s full per-unit argument list is
the baseline flags, then the nine fixed warning flags (implicit function
declarations, incompatible pointer types, missing return, pointer-sign and
int-to-pointer-cast escalated to errors; `-Wpedantic`/`-Wall` enabled;
`-Wno-unused-function` and `-Wno-parentheses-equality` silenced), then `-c`,
the source path, `-o`, and the derived output path.  A foreign-object unit's
list is just the baseline flags plus `-c`, the source path, `-o`, and the
derived output path — no warning flags. -/
theorem c6_theorem (cflags : List String) (inp : String) (cf : CFile) :
    buildArgs cflags cf =
      cflags ++ warningFlags ++ ["-c", cf.filepath, "-o", buildOutp cflags cf] ∧
    (∀ w ∈ warningFlags, w ∈ buildArgs cflags cf) ∧
    cobjectArgs cflags inp = cflags ++ ["-c", inp, "-o", cobjectOutp cflags inp] := by
  refine ⟨?_, ?_, ?_⟩
  · simp [buildArgs, buildArgsBase, List.append_assoc]
  · intro w hw
    simp only [buildArgs, buildArgsBase, List.mem_append]
    exact Or.inl (Or.inl (Or.inr hw))
  · simp [cobjectArgs, cobjectArgsBase, List.append_assoc]

/-- Witness for C6 (amended): the two argument-list shapes at concrete
inputs — empty baseline flags, foreign source `a.c`, generated unit `m`. -/
theorem c6_witness :
    buildArgs [] ⟨"m", "m.c", []⟩ =
      [] ++ warningFlags ++ ["-c", "m.c", "-o", buildOutp [] ⟨"m", "m.c", []⟩] ∧
    (∀ w ∈ warningFlags, w ∈ buildArgs [] ⟨"m", "m.c", []⟩) ∧
    cobjectArgs [] "a.c" = [] ++ ["-c", "a.c", "-o", cobjectOutp [] "a.c"] :=
  c6_theorem [] "a.c" ⟨"m", "m.c", []⟩

/-- Modelled from the spec (§4.3), for comparison with `buildOutp`: the object
filename the spec prescribes for a generated translation unit — the unit's
**source path** with every non-alphanumeric character replaced by the filler,
plus underscore and hex hash, under the generated-unit namespace. -/
def specGeneratedOutp (cflags : List String) (cf : CFile) : String :=
  "./target/zz/" ++ sanitize cf.filepath ++ "_" ++ toHex (buildHash cflags cf) ++ ".o"

set_option maxRecDepth 40000 in
/-- Counterexample to claim C8 as stated: for a generated unit named `main`
with source path `./src/main.c`, the code derives the filename from the unit's
*name* used verbatim, not from the sanitized source path the claim (and spec
§4.3) prescribe — the two differ. -/
theorem c8_counterexample :
    buildOutp [] ⟨"main", "./src/main.c", []⟩ ≠
      specGeneratedOutp [] ⟨"main", "./src/main.c", []⟩ := by
  decide

/-- Claim C8 (amended): the Step enqueued for a stale **foreign-object** unit
carries, as its trailing output argument, the source path with every
non-alphanumeric character replaced by `'_'`, an underscore, the hash in hex,
under `./target/c/` with extension `.o`; for a stale **generated** unit the
stem is the unit's `name` taken verbatim (not its sanitized source path),
under `./target/zz/` with extension `.o`. -/
theorem c8_theorem :
    (∀ (fs : FS) (m : Make) (inp : String),
      is_dirty fs [inp] (cobjectOutp m.cflags inp) = some true →
      (Make.cobject fs m inp).map (fun m2 => m2.steps.getLast?) =
        some (some ⟨inp, cobjectArgsBase m.cflags inp ++
          ["./target/c/" ++ sanitize inp ++ "_" ++ toHex (cobjectHash m.cflags inp) ++ ".o"]⟩)) ∧
    (∀ (fs : FS) (m : Make) (cf : CFile),
      is_dirty fs cf.sources (buildOutp m.cflags cf) = some true →
      (Make.build fs m cf).map (fun m2 => m2.steps.getLast?) =
        some (some ⟨cf.filepath, buildArgsBase m.cflags cf ++
          ["./target/zz/" ++ cf.name ++ "_" ++ toHex (buildHash m.cflags cf) ++ ".o"]⟩)) := by
  constructor
  · intro fs m inp h
    rw [cobject_eq fs m inp true h]
    simp [cobjectArgs, cobjectOutp]
  · intro fs m cf h
    rw [build_eq fs m cf true h]
    simp [buildArgs, buildOutp]

/-- Witness for C8 (amended): with every path unreadable (stale), both unit
kinds enqueue a Step whose output argument has the stated shape. -/
theorem c8_witness :
    (is_dirty (fun _ => none) ["a.c"] (cobjectOutp [] "a.c") = some true) ∧
    (is_dirty (fun _ => none) (⟨"main", "./src/main.c", []⟩ : CFile).sources
      (buildOutp [] ⟨"main", "./src/main.c", []⟩) = some true) ∧
    ((Make.cobject (fun _ => none) ⟨⟨.Exe, "p"⟩, [], "clang", [], []⟩ "a.c").map
        (fun m2 => m2.steps.getLast?) =
      some (some ⟨"a.c", cobjectArgsBase [] "a.c" ++
        ["./target/c/" ++ sanitize "a.c" ++ "_" ++ toHex (cobjectHash [] "a.c") ++ ".o"]⟩)) ∧
    ((Make.build (fun _ => none) ⟨⟨.Exe, "p"⟩, [], "clang", [], []⟩
        ⟨"main", "./src/main.c", []⟩).map (fun m2 => m2.steps.getLast?) =
      some (some ⟨"./src/main.c", buildArgsBase [] ⟨"main", "./src/main.c", []⟩ ++
        ["./target/zz/" ++ "main" ++ "_" ++
          toHex (buildHash [] ⟨"main", "./src/main.c", []⟩) ++ ".o"]⟩)) :=
  ⟨rfl, rfl,
    c8_theorem.1 (fun _ => none) ⟨⟨.Exe, "p"⟩, [], "clang", [], []⟩ "a.c" rfl,
    c8_theorem.2 (fun _ => none) ⟨⟨.Exe, "p"⟩, [], "clang", [], []⟩
      ⟨"main", "./src/main.c", []⟩ rfl⟩

theorem runSteps_all_ok (exec : String → List String → ProcStatus) (cc : String) :
    ∀ l : List Step, (∀ s ∈ l, exec cc s.args = .exited 0) →
    runSteps exec cc l = (l.map (fun s => (cc, s.args)), none) := by
  intro l
  induction l with
  | nil => intro _; rfl
  | cons s rest ih =>
    intro hall
    have hs := hall s (List.mem_cons_self s rest)
    have ihr := ih (fun x hx => hall x (List.mem_cons_of_mem s hx))
    simp [runSteps, hs, ihr]

theorem runSteps_fail (exec : String → List String → ProcStatus) (cc : String) :
    ∀ (pre : List Step) (bad : Step) (post : List Step) (c : Nat),
    (∀ s ∈ pre, exec cc s.args = .exited 0) →
    statusFailCode (exec cc bad.args) = some c →
    runSteps exec cc (pre ++ bad :: post) =
      ((pre ++ [bad]).map (fun s => (cc, s.args)), some (.exitCode c)) := by
  intro pre
  induction pre with
  | nil =>
    intro bad post c _ hbad
    match hb : exec cc bad.args with
    | .execFail => rw [hb] at hbad; simp [statusFailCode] at hbad
    | .signaled =>
      rw [hb] at hbad
      simp only [statusFailCode, Option.some.injEq] at hbad
      subst hbad
      simp [runSteps, hb]
    | .exited c2 =>
      rw [hb] at hbad
      simp only [statusFailCode] at hbad
      by_cases h0 : c2 = 0
      · rw [if_pos h0] at hbad; cases hbad
      · rw [if_neg h0] at hbad
        simp only [Option.some.injEq] at hbad
        subst hbad
        simp [runSteps, hb, h0]
  | cons s rest ih =>
    intro bad post c hpre hbad
    have hs := hpre s (List.mem_cons_self s rest)
    have ihr := ih bad post c (fun x hx => hpre x (List.mem_cons_of_mem s hx)) hbad
    simp [runSteps, hs, ihr]

/-- Claim C3 (confirmed): if an enqueued compile Step's subprocess fails — it
exits with a non-zero code `c`, or abnormally, in which case the propagated
code is the fixed fallback `3` (`statusFailCode`) — then the whole
orchestration terminates with exit code `c`: the spawn trace is exactly the
compile invocations up to and including the failing one, every spawned
invocation is a compile Step's, and the link invocation is never executed.
(The rayon `par_iter` is modelled by one sequential interleaving; the claimed
conclusions — propagated exit code and absence of the link spawn — hold in
every interleaving, since the linker only runs after all Steps return
successfully.) -/
theorem c3_theorem (exec : String → List String → ProcStatus) (m : Make)
    (pre post : List Step) (bad : Step) (c : Nat)
    (hsteps : m.steps = pre ++ bad :: post)
    (hpre : ∀ s ∈ pre, exec m.cc s.args = .exited 0)
    (hbad : statusFailCode (exec m.cc bad.args) = some c) :
    (Make.link exec m).1 = .exitCode c ∧
    (Make.link exec m).2 = (pre ++ [bad]).map (fun s => (m.cc, s.args)) ∧
    ∀ e ∈ (Make.link exec m).2, ∃ s ∈ m.steps, e = (m.cc, s.args) := by
  have hrun := runSteps_fail exec m.cc pre bad post c hpre hbad
  have hlink : Make.link exec m = (.exitCode c, (pre ++ [bad]).map (fun s => (m.cc, s.args))) := by
    unfold Make.link
    rw [hsteps, hrun]
  refine ⟨by rw [hlink], by rw [hlink], ?_⟩
  rw [hlink]
  intro e he
  simp only [List.mem_map] at he
  obtain ⟨s, hs, rfl⟩ := he
  refine ⟨s, ?_, rfl⟩
  rw [hsteps]
  rcases List.mem_append.mp hs with h | h
  · exact List.mem_append.mpr (Or.inl h)
  · simp only [List.mem_singleton] at h
    exact List.mem_append.mpr (Or.inr (h ▸ List.mem_cons_self bad post))

/-- Witness for C3: two Steps; the second exits with code 7 — the orchestration
exits with code 7 after spawning exactly the two compile invocations. -/
theorem c3_witness :
    ((⟨⟨.Exe, "p"⟩, [⟨"a.c", ["A"]⟩, ⟨"b.c", ["B"]⟩], "cc", [], []⟩ : Make).steps =
      [⟨"a.c", ["A"]⟩] ++ (⟨"b.c", ["B"]⟩ : Step) :: []) ∧
    (∀ s ∈ [(⟨"a.c", ["A"]⟩ : Step)],
      (fun _ args => if args = ["B"] then ProcStatus.exited 7 else .exited 0 : String → List String → ProcStatus)
        "cc" s.args = .exited 0) ∧
    (statusFailCode
      ((fun _ args => if args = ["B"] then ProcStatus.exited 7 else .exited 0 : String → List String → ProcStatus)
        "cc" (⟨"b.c", ["B"]⟩ : Step).args) = some 7) ∧
    (Make.link (fun _ args => if args = ["B"] then ProcStatus.exited 7 else .exited 0)
      ⟨⟨.Exe, "p"⟩, [⟨"a.c", ["A"]⟩, ⟨"b.c", ["B"]⟩], "cc", [], []⟩).1 = .exitCode 7 ∧
    (Make.link (fun _ args => if args = ["B"] then ProcStatus.exited 7 else .exited 0)
      ⟨⟨.Exe, "p"⟩, [⟨"a.c", ["A"]⟩, ⟨"b.c", ["B"]⟩], "cc", [], []⟩).2 =
      [("cc", ["A"]), ("cc", ["B"])] :=
  ⟨rfl, by decide, by decide,
    (c3_theorem (fun _ args => if args = ["B"] then ProcStatus.exited 7 else .exited 0)
      ⟨⟨.Exe, "p"⟩, [⟨"a.c", ["A"]⟩, ⟨"b.c", ["B"]⟩], "cc", [], []⟩
      [⟨"a.c", ["A"]⟩] [] ⟨"b.c", ["B"]⟩ 7 rfl (by decide) (by decide)).1,
    (c3_theorem (fun _ args => if args = ["B"] then ProcStatus.exited 7 else .exited 0)
      ⟨⟨.Exe, "p"⟩, [⟨"a.c", ["A"]⟩, ⟨"b.c", ["B"]⟩], "cc", [], []⟩
      [⟨"a.c", ["A"]⟩] [] ⟨"b.c", ["B"]⟩ 7 rfl (by decide) (by decide)).2.1⟩

set_option maxRecDepth 40000 in
/-- Counterexample to claim C4 as stated: a Header-artifact build with one
stale foreign-object unit.  `Make::link` spawns that unit's compile subprocess
(the trace has length 1) **before** raising the "cannot link header yet"
panic, so the fatal configuration error is *not* raised before any subprocess
is spawned. -/
theorem c4_counterexample :
    (Make.new (fun _ => none) (fun _ => some (true, "")) (fun _ => none)
        ⟨none, none, none, none, none, some ["a.c"]⟩ ⟨.Header, "h"⟩).map
      (fun m => ((Make.link (fun _ _ => .exited 0) m).1,
        (Make.link (fun _ _ => .exited 0) m).2.length)) =
    some (.panicked "cannot link header yet", 1) := by
  decide

/-- Claim C4 (amended): when the requested Artifact kind is Header and every
enqueued compile Step succeeds, linking fails with the fatal "cannot link
header yet" panic — a non-zero abort — raised *after* the compile subprocesses
but **before any link subprocess is spawned**: the trace consists of exactly
the compile invocations, with no linker invocation. -/
theorem c4_theorem (exec : String → List String → ProcStatus) (m : Make)
    (hh : m.artifact.typ = .Header)
    (hok : ∀ s ∈ m.steps, exec m.cc s.args = .exited 0) :
    Make.link exec m =
      (.panicked "cannot link header yet", m.steps.map (fun s => (m.cc, s.args))) := by
  unfold Make.link
  rw [runSteps_all_ok exec m.cc m.steps hok, hh]

/-- Witness for C4 (amended): one successful compile Step, Header artifact —
the result is the panic, and the trace holds only the compile invocation. -/
theorem c4_witness :
    ((⟨⟨.Header, "h"⟩, [⟨"a.c", ["A"]⟩], "cc", [], []⟩ : Make).artifact.typ = .Header) ∧
    (∀ s ∈ (⟨⟨.Header, "h"⟩, [⟨"a.c", ["A"]⟩], "cc", [], []⟩ : Make).steps,
      (fun _ _ => ProcStatus.exited 0 : String → List String → ProcStatus) "cc" s.args
        = .exited 0) ∧
    Make.link (fun _ _ => .exited 0) ⟨⟨.Header, "h"⟩, [⟨"a.c", ["A"]⟩], "cc", [], []⟩ =
      (.panicked "cannot link header yet", [("cc", ["A"])]) :=
  ⟨rfl, by decide,
    c4_theorem (fun _ _ => .exited 0) ⟨⟨.Header, "h"⟩, [⟨"a.c", ["A"]⟩], "cc", [], []⟩
      rfl (by decide)⟩

theorem pkgQueries_none (pkg : PkgExec) :
    ∀ (pre : List String) (p : String) (post : List String),
    (∀ q ∈ pre, (pkg ["pkg-config", "--cflags", q]).isSome ∧
      (pkg ["pkg-config", "--libs", q]).isSome) →
    (pkg ["pkg-config", "--cflags", p] = none ∨ pkg ["pkg-config", "--libs", p] = none) →
    pkgQueries pkg (pre ++ p :: post) = none := by
  intro pre
  induction pre with
  | nil =>
    intro p post _ hp
    rcases hp with hp | hp
    · simp [pkgQueries, hp]
    · cases hc : pkg ["pkg-config", "--cflags", p] with
      | none => simp [pkgQueries, hc]
      | some cOut => simp [pkgQueries, hc, hp]
  | cons q rest ih =>
    intro p post hpre hp
    obtain ⟨hc, hl⟩ := hpre q (List.mem_cons_self q rest)
    obtain ⟨cOut, hcOut⟩ := Option.isSome_iff_exists.mp hc
    obtain ⟨lOut, hlOut⟩ := Option.isSome_iff_exists.mp hl
    have hrest := ih p post (fun x hx => hpre x (List.mem_cons_of_mem q hx)) hp
    simp only [List.cons_append]
    unfold pkgQueries
    rw [hcOut, hlOut, hrest]

/-- Claim C5 (amended): for a configured package-config package whose
query-tool invocation is **unexecutable** (the spawn itself fails, for either
the `--cflags` or the `--libs` query), `Make::new` panics and the build never
reaches compile or link steps.  (A query tool that *runs but exits non-zero*
is **not** detected — see the counterexample — because `.output()` only fails
on spawn errors and the exit status is never inspected.) -/
theorem c5_theorem (env : String → Option String) (pkg : PkgExec) (fs : FS)
    (project : Project) (artifact : Artifact) (pre : List String) (p : String)
    (post : List String)
    (hpkgs : project.pkgconfig = some (pre ++ p :: post))
    (hpre : ∀ q ∈ pre, (pkg ["pkg-config", "--cflags", q]).isSome ∧
      (pkg ["pkg-config", "--libs", q]).isSome)
    (hp : pkg ["pkg-config", "--cflags", p] = none ∨ pkg ["pkg-config", "--libs", p] = none) :
    Make.new env pkg fs project artifact = none := by
  unfold Make.new
  rw [hpkgs]
  simp only [Option.getD_some]
  rw [pkgQueries_none pkg pre p post hpre hp]

/-- Witness for C5 (amended): one configured package whose `--cflags` spawn
fails — `Make::new` aborts (`none`). -/
theorem c5_witness :
    ((⟨none, none, some ["bad"], none, none, none⟩ : Project).pkgconfig
      = some ([] ++ "bad" :: [])) ∧
    ((fun args => if args = ["pkg-config", "--cflags", "bad"] then none
        else some (true, "") : PkgExec) ["pkg-config", "--cflags", "bad"] = none) ∧
    Make.new (fun _ => none)
      (fun args => if args = ["pkg-config", "--cflags", "bad"] then none else some (true, ""))
      (fun _ => none) ⟨none, none, some ["bad"], none, none, none⟩ ⟨.Exe, "prog"⟩ = none :=
  ⟨rfl, by decide,
    c5_theorem (fun _ => none)
      (fun args => if args = ["pkg-config", "--cflags", "bad"] then none else some (true, ""))
      (fun _ => none) ⟨none, none, some ["bad"], none, none, none⟩ ⟨.Exe, "prog"⟩
      [] "bad" [] rfl (by simp) (Or.inl (by decide))⟩

/-- Counterexample to claim C5 as stated: pkg-config *runs but fails* (exit
status unsuccessful, here with empty stdout) for every query of the one
configured package — yet `Make::new` completes normally, consuming the failed
queries' empty output: the resulting baseline compile flags are exactly the
built-ins, no abort happens, and the build proceeds toward compile and link
steps. -/
theorem c5_counterexample :
    (Make.new (fun _ => none) (fun _ => some (false, "")) (fun _ => none)
        ⟨none, none, some ["libfoo"], none, none, none⟩ ⟨.Exe, "prog"⟩).map Make.cflags =
      some ["-fPIC", "-I", ".", "-I", "./target/include/", "-fvisibility=hidden"] := by
  decide

end Zz
